import Mathlib

/-!
Shallow embedding of the betab1cs epidemic simulation (src/variant.py,
src/agent.py, src/model.py, src/simulation.py).

Probabilities and uniform(0,1) draws are modelled as rationals; randomness is
passed explicitly as data.  Genomes (BitVector in the source) are lists of
booleans; the registry (`model.variant_code_map`, a dict keyed by the genome's
hex string) is an association list keyed by the genome's numeric value, which
for the fixed genome size used by the source is in bijection with the hex
string.  Fallible computations (Python exceptions) return `Option`.
-/

namespace Covid

/-- The four agent states of `InfectionState` in src/agent.py. -/
inductive InfectionState where
  | SUSCEPTIBLE
  | INFECTED
  | RESISTANT
  | DEAD
deriving DecidableEq, Repr

/-- GENETIC_CODE_SIZE in src/variant.py: the fixed genome length. -/
def GENETIC_CODE_SIZE : ℕ := 4

/-- A pathogen variant: genome bits plus base rates (src/variant.py,
`CovidVariant`; the `model` back-reference is threaded explicitly instead). -/
structure CovidVariant where
  genetic_code : List Bool
  base_infection_prob : ℚ
  base_death_prob : ℚ
deriving DecidableEq, Repr

/-- Numeric value of a genome, most significant bit first.  Models the
genome's zero-padded uppercase hex string (`CovidVariant.name`): for genomes of
a fixed common size the hex string and this value determine each other. -/
def bitsToNat : List Bool → ℕ
  | [] => 0
  | b :: bs => (if b then 1 else 0) * 2 ^ bs.length + bitsToNat bs

/-- The variant's `name` property: the canonical encoding of the genome
(modelled numerically, see `bitsToNat`). -/
def vname (v : CovidVariant) : ℕ := bitsToNat v.genetic_code

/-- CovidVariant.__eq__ in src/variant.py: equality compares only `name`. -/
def veq (v other : CovidVariant) : Bool := vname v == vname other

/-- CovidVariant.__hash__ in src/variant.py: the hash is a function of `name`
alone (modelled as the name value itself). -/
def vhash (v : CovidVariant) : ℕ := vname v

/-- Number of positions where the two genomes differ:
`(a ^ b).count_bits()` for equal-size bit vectors. -/
def hammingDist (a b : List Bool) : ℕ :=
  ((a.zip b).filter (fun p => p.1 != p.2)).length

/-- CovidVariant.similarity in src/variant.py:
`1 - popcount(a XOR b) / a.size`. -/
def similarity (v other : CovidVariant) : ℚ :=
  1 - (hammingDist v.genetic_code other.genetic_code : ℚ) / v.genetic_code.length

/-- The registry `model.variant_code_map`: a map from genome codes to variants,
kept as an association list (insertion at the head). -/
abbrev VariantCodeMap : Type := List (ℕ × CovidVariant)

/-- Dictionary lookup `variant_code_map.get(code)`: the value under the first
matching key, if any. -/
def lookupCode (code : ℕ) : VariantCodeMap → Option CovidVariant
  | [] => none
  | (k, v) :: rest => if code = k then some v else lookupCode code rest

/-- Randomness consumed by one `child_variant` call: one uniform(0,1) draw per
genome bit, and the two `random.choice((1, -1))` sign draws. -/
structure ChildRandomness where
  flipDraws : List ℚ
  infectionSign : Bool
  deathSign : Bool
deriving DecidableEq, Repr

/-- Value of a `random.choice((1, -1))` draw. -/
def signVal (b : Bool) : ℚ := if b then 1 else -1

/-- The mutated genome of CovidVariant.child_variant: each bit flips exactly
when its own uniform draw is `< mutation_prob`. -/
def mutateGenome (g : List Bool) (mutation_prob : ℚ) (draws : List ℚ) : List Bool :=
  (g.zip draws).map (fun p => if p.2 < mutation_prob then !p.1 else p.1)

/-- num_mutations in CovidVariant.child_variant: how many bits flipped. -/
def numMutations (g : List Bool) (mutation_prob : ℚ) (draws : List ℚ) : ℕ :=
  ((g.zip draws).filter (fun p => decide (p.2 < mutation_prob))).length

/-- CovidVariant.child_variant in src/variant.py.  Flips each bit of a copy of
the genome independently with probability `mutation_prob`; if the resulting
genome's code is already in `variant_code_map` the existing entry is returned
unchanged, otherwise drifted rates are computed (no clamping appears in the
source) and the new variant is inserted under its code. -/
def child_variant (v : CovidVariant) (mutation_prob : ℚ)
    (variant_code_map : VariantCodeMap) (r : ChildRandomness) :
    CovidVariant × VariantCodeMap :=
  let new_genetic_code := mutateGenome v.genetic_code mutation_prob r.flipDraws
  let num_mutations := numMutations v.genetic_code mutation_prob r.flipDraws
  match lookupCode (bitsToNat new_genetic_code) variant_code_map with
  | some variant => (variant, variant_code_map)
  | none =>
    let new_infection_prob := v.base_infection_prob +
      ((num_mutations : ℚ) / new_genetic_code.length) * v.base_infection_prob *
        signVal r.infectionSign
    let new_death_prob := v.base_death_prob +
      ((num_mutations : ℚ) / new_genetic_code.length) * v.base_death_prob *
        signVal r.deathSign
    let new_variant : CovidVariant :=
      ⟨new_genetic_code, new_infection_prob, new_death_prob⟩
    (new_variant, (bitsToNat new_genetic_code, new_variant) :: variant_code_map)

/-- An agent's mutable simulation state (src/agent.py, `CovidAgent`; the
`model` back-reference and grid position are threaded explicitly). -/
structure CovidAgent where
  state : InfectionState
  infection_variant : Option CovidVariant
  immune_memory : List CovidVariant
deriving DecidableEq, Repr

/-- The model-level configuration read by agents (src/model.py fields). -/
structure ModelParams where
  infection_prob : ℚ
  recovery_prob : ℚ
  death_prob : ℚ
  gain_resistance_prob : ℚ
  resistance_level : ℚ
  mutation_prob : ℚ
deriving DecidableEq, Repr

/-- DEFAULT_MODEL_PARAMS in src/model.py (the probability fields). -/
def defaultParams : ModelParams :=
  { infection_prob := 1/10
    recovery_prob := 5/100
    death_prob := 1/1000
    gain_resistance_prob := 1/100
    resistance_level := 1
    mutation_prob := 1/1000 }

/-- Maximum of a list of rationals, as Python's `max` over a nonempty list
(0 for the empty list, which the source never reaches). -/
def listMax : List ℚ → ℚ
  | [] => 0
  | x :: xs => xs.foldl max x

/-- CovidAgent.infection_resistance_level in src/agent.py: the greatest
similarity between the challenging variant and any remembered variant, 0 when
the immune memory is empty.  (src/model.py refers to this method under the
name `resistance_level`.) -/
def infection_resistance_level (a : CovidAgent) (variant : CovidVariant) : ℚ :=
  if a.immune_memory.length ≠ 0 then
    listMax (a.immune_memory.map
      (fun remembered_variant => similarity remembered_variant variant))
  else 0

/-- CovidAgent.death_resistance_level in src/agent.py: the greatest similarity
between the agent's current infection variant and any remembered variant, 0
for an empty memory.  Only read while the agent is INFECTED, where
`infection_variant` is set. -/
def death_resistance_level (a : CovidAgent) : ℚ :=
  match a.infection_variant with
  | some v => infection_resistance_level a v
  | none => 0

/-- CovidAgent.try_infect in src/agent.py.  `r1` is the draw compared against
the variant's base infection probability, `r2` the draw compared against the
target's resistance level; `cr` is the randomness consumed by the
`child_variant` call on success.  Returns the updated target together with the
possibly grown registry. -/
def try_infect (a : CovidAgent) (variant : CovidVariant) (mutation_prob : ℚ)
    (variant_code_map : VariantCodeMap) (r1 r2 : ℚ) (cr : ChildRandomness) :
    CovidAgent × VariantCodeMap :=
  if (a.state = InfectionState.SUSCEPTIBLE ∨ a.state = InfectionState.RESISTANT)
      ∧ r1 < variant.base_infection_prob
      ∧ r2 > infection_resistance_level a variant then
    let res := child_variant variant mutation_prob variant_code_map cr
    ({ a with state := InfectionState.INFECTED, infection_variant := some res.1 },
      res.2)
  else (a, variant_code_map)

/-- The vaccine pseudo-variant appended by the SUSCEPTIBLE branch of
CovidAgent.step (`CovidVariant(0, 0)`): default all-zero genome, zero base
rates; it is never entered into the registry. -/
def vaccineVariant : CovidVariant :=
  ⟨List.replicate GENETIC_CODE_SIZE false, 0, 0⟩

/-- CovidAgent.infect_neighbors in src/agent.py: call `try_infect` with the
given variant on every neighbor in order, threading the registry; `rands`
supplies each neighbor's draws (the two uniforms and the child randomness). -/
def infect_neighbors (variant : CovidVariant) (mutation_prob : ℚ) :
    VariantCodeMap → List CovidAgent → (ℕ → ℚ × ℚ × ChildRandomness) →
    List CovidAgent × VariantCodeMap
  | vmap, [], _ => ([], vmap)
  | vmap, n :: ns, rands =>
    let res := try_infect n variant mutation_prob vmap
      (rands 0).1 (rands 0).2.1 (rands 0).2.2
    let rest := infect_neighbors variant mutation_prob res.2 ns
      (fun i => rands (i + 1))
    (res.1 :: rest.1, rest.2)

/-- Randomness consumed by one CovidAgent.step call: the recovery draw, the
two death-branch draws, and the SUSCEPTIBLE branch's gain-resistance draw.
Python draws these lazily; passing them all is harmless since unused draws are
ignored. -/
structure StepRandomness where
  recoveryDraw : ℚ
  deathDraw : ℚ
  deathResistDraw : ℚ
  gainResistDraw : ℚ
deriving DecidableEq, Repr

/-- CovidAgent.step in src/agent.py, with the agent's neighbor list and the
registry made explicit.  Returns the stepped agent, the (possibly infected)
neighbors, and the registry.  The INFECTED branch recovers, else dies, else
infects every neighbor; the SUSCEPTIBLE branch may gain vaccine resistance;
RESISTANT and DEAD agents do nothing. -/
def step (a : CovidAgent) (params : ModelParams) (r : StepRandomness)
    (neighbors : List CovidAgent) (vmap : VariantCodeMap)
    (nrands : ℕ → ℚ × ℚ × ChildRandomness) :
    CovidAgent × List CovidAgent × VariantCodeMap :=
  if a.state = InfectionState.INFECTED then
    if r.recoveryDraw < params.recovery_prob then
      ({ a with state := InfectionState.RESISTANT
                immune_memory := a.immune_memory ++ a.infection_variant.toList
                infection_variant := none },
        neighbors, vmap)
    else if r.deathDraw < params.death_prob
        ∧ r.deathResistDraw > death_resistance_level a then
      ({ a with state := InfectionState.DEAD }, neighbors, vmap)
    else
      match a.infection_variant with
      | some v =>
        let res := infect_neighbors v params.mutation_prob vmap neighbors nrands
        (a, res.1, res.2)
      | none => (a, neighbors, vmap)
      -- An INFECTED agent always carries a variant (see the invariant
      -- theorems below); the source has no code path for None here.
  else if a.state = InfectionState.SUSCEPTIBLE then
    if r.gainResistDraw < params.gain_resistance_prob then
      ({ a with state := InfectionState.RESISTANT
                immune_memory := a.immune_memory ++ [vaccineVariant] },
        neighbors, vmap)
    else (a, neighbors, vmap)
  else (a, neighbors, vmap)

/-- The index variant created in CovidModel.__init__:
`CovidVariant(self, self.infection_prob, self.death_prob)`, whose genome is
the default all-zero bit vector. -/
def indexVariant (infection_prob death_prob : ℚ) : CovidVariant :=
  ⟨List.replicate GENETIC_CODE_SIZE false, infection_prob, death_prob⟩

/-- The registry as initialized in CovidModel.__init__: exactly the index
variant under its genome's code. -/
def initialVariantCodeMap (infection_prob death_prob : ℚ) : VariantCodeMap :=
  [(bitsToNat (List.replicate GENETIC_CODE_SIZE false),
    indexVariant infection_prob death_prob)]

/-- The seed agent created in CovidModel.__init__ (node 0): INFECTED and
carrying the index variant. -/
def seedAgent (infection_prob death_prob : ℚ) : CovidAgent :=
  ⟨InfectionState.INFECTED, some (indexVariant infection_prob death_prob), []⟩

/-- Every other agent created in CovidModel.__init__: SUSCEPTIBLE, no variant,
empty immune memory. -/
def freshAgent : CovidAgent := ⟨InfectionState.SUSCEPTIBLE, none, []⟩

/-- CovidModel.variant_immunity_levels in src/model.py.  For each registered
variant the mean resistance level over all agents, each entry then divided by
the mean of those means when that mean is positive and replaced by 0
otherwise.  The two unguarded divisions in the source — by `len(self.agents)`
and by `len(self.variant_code_map)` — raise ZeroDivisionError when the
population or the registry is empty, modelled by `none`. -/
def variant_immunity_levels (agents : List CovidAgent)
    (variants : List CovidVariant) : Option (List (CovidVariant × ℚ)) :=
  if agents.length = 0 ∨ variants.length = 0 then none
  else
    let pre := variants.map (fun v =>
      (v, (agents.map (fun a => infection_resistance_level a v)).sum /
        (agents.length : ℚ)))
    let total := (pre.map (fun p => p.2)).sum
    let avg := total / (variants.length : ℚ)
    some (pre.map (fun p => (p.1, if avg > 0 then p.2 / avg else 0)))

/-- Mean resistance level of the population against one variant: the inner
sum of CovidModel.variant_immunity_levels. -/
def meanImmunity (agents : List CovidAgent) (v : CovidVariant) : ℚ :=
  (agents.map (fun a => infection_resistance_level a v)).sum /
    (agents.length : ℚ)

/-- Population-wide mean of the per-variant mean immunities: the normalizer of
CovidModel.variant_immunity_levels. -/
def avgImmunity (agents : List CovidAgent) (variants : List CovidVariant) : ℚ :=
  (variants.map (meanImmunity agents)).sum / (variants.length : ℚ)

/-- MAX_STEPS in src/simulation.py. -/
def MAX_STEPS : ℕ := 500

/-- INFECTION_THRESHOLD in src/simulation.py. -/
def INFECTION_THRESHOLD : ℚ := 9/10

/-- termination_condition_unmet in src/simulation.py:
`num_infected / len(agents) < INFECTION_THRESHOLD`. -/
def termination_condition_unmet (num_infected num_agents : ℕ) : Prop :=
  (num_infected : ℚ) / (num_agents : ℚ) < INFECTION_THRESHOLD

instance (num_infected num_agents : ℕ) :
    Decidable (termination_condition_unmet num_infected num_agents) := by
  unfold termination_condition_unmet
  infer_instance

/-- The while loop of run_simulation in src/simulation.py, over an abstract
model `M` with a tick function and infected/population counters.  `fuel` is
the number of remaining iterations allowed by the `steps < MAX_STEPS`
conjunct; `steps` is the running counter.  Returns the model after the loop
together with the final step count. -/
def simLoop {M : Type} (tick : M → M) (numInf numAg : M → ℕ) :
    ℕ → M → ℕ → M × ℕ
  | 0, m, steps => (m, steps)
  | fuel + 1, m, steps =>
    if 0 < numInf m ∧ termination_condition_unmet (numInf m) (numAg m) then
      simLoop tick numInf numAg fuel (tick m) (steps + 1)
    else (m, steps)

/-- run_simulation in src/simulation.py, over an abstract model: run the loop
from step 0, then return None when the termination condition is still unmet
and the step count otherwise. -/
def run_simulation {M : Type} (tick : M → M) (numInf numAg : M → ℕ) (m : M) :
    Option ℕ :=
  let res := simLoop tick numInf numAg MAX_STEPS m 0
  if termination_condition_unmet (numInf res.1) (numAg res.1) then none
  else some res.2

/-- Anything the simulation can do to one agent: run the agent through its own
step (with some draws, neighbor list, registry and neighbor randomness), or
have another agent attempt to infect it. -/
inductive AgentOp where
  | stepOp (params : ModelParams) (r : StepRandomness) (neighbors : List CovidAgent)
      (vmap : VariantCodeMap) (nrands : ℕ → ℚ × ℚ × ChildRandomness)
  | tryInfectOp (variant : CovidVariant) (mutation_prob : ℚ) (vmap : VariantCodeMap)
      (r1 r2 : ℚ) (cr : ChildRandomness)

/-- Apply one operation to an agent, keeping only the agent's own state. -/
def applyOp (a : CovidAgent) : AgentOp → CovidAgent
  | .stepOp params r neighbors vmap nrands => (step a params r neighbors vmap nrands).1
  | .tryInfectOp variant mp vmap r1 r2 cr => (try_infect a variant mp vmap r1 r2 cr).1

/-- Apply a whole sequence of operations to an agent, in order. -/
def applyOps (a : CovidAgent) (ops : List AgentOp) : CovidAgent :=
  ops.foldl applyOp a

/-- The invariant relating an agent's state to its infection variant that the
code actually maintains: the variant is set exactly in the INFECTED and DEAD
states (dead agents keep the variant they died with). -/
def variantStateInv (a : CovidAgent) : Prop :=
  (a.state = InfectionState.INFECTED ∨ a.state = InfectionState.DEAD) ↔
    a.infection_variant.isSome

/-! ## Concrete instances used by counterexamples and witnesses -/

/-- A remembered variant two bits away from the index genome: similarity 1/2. -/
def memVariant : CovidVariant := ⟨[true, true, false, false], 1/10, 1/1000⟩

/-- A SUSCEPTIBLE target that nevertheless has a nonempty immune memory. -/
def target1 : CovidAgent := ⟨InfectionState.SUSCEPTIBLE, none, [memVariant]⟩

/-- A parent variant with base rates 0.8, for exercising the drift formula. -/
def fatParent : CovidVariant := ⟨List.replicate 4 false, 4/5, 4/5⟩

/-- A RESISTANT agent whose immune memory holds the vaccine pseudo-variant. -/
def vaxAgent : CovidAgent := ⟨InfectionState.RESISTANT, none, [vaccineVariant]⟩

/-- A DEAD agent still carrying the variant it died with. -/
def deadAgent : CovidAgent :=
  ⟨InfectionState.DEAD, some (indexVariant (1/10) (1/1000)), []⟩

/-- Child randomness whose four flip draws are all 1, so no bit ever flips
(every mutation probability of interest is below 1). -/
def noFlips : ChildRandomness := ⟨[1, 1, 1, 1], true, true⟩

/-- A constant stream of per-neighbor randomness. -/
def zeroRands : ℕ → ℚ × ℚ × ChildRandomness := fun _ => (0, 0, ⟨[], true, true⟩)

/-! ## Helper lemmas -/

theorem le_foldl_max (l : List ℚ) (b : ℚ) : b ≤ l.foldl max b := by
  induction l generalizing b with
  | nil => exact le_refl b
  | cons x xs ih => exact le_trans (le_max_left b x) (ih (max b x))

theorem le_foldl_max_of_mem {x : ℚ} {l : List ℚ} (b : ℚ) (h : x ∈ l) :
    x ≤ l.foldl max b := by
  induction l generalizing b with
  | nil => cases h
  | cons y ys ih =>
    rcases List.mem_cons.mp h with hxy | hmem
    · subst hxy
      exact le_trans (le_max_right b x) (le_foldl_max ys (max b x))
    · exact ih (max b y) hmem

theorem le_listMax_of_mem {x : ℚ} {l : List ℚ} (h : x ∈ l) : x ≤ listMax l := by
  cases l with
  | nil => cases h
  | cons y ys =>
    rcases List.mem_cons.mp h with hxy | hmem
    · subst hxy
      exact le_foldl_max ys x
    · exact le_foldl_max_of_mem y hmem

theorem lookupCode_eq_none {code : ℕ} {m : VariantCodeMap} :
    lookupCode code m = none ↔ ∀ p ∈ m, code ≠ p.1 := by
  induction m with
  | nil => simp [lookupCode]
  | cons q rest ih =>
    obtain ⟨k, v⟩ := q
    by_cases hk : code = k
    · subst hk
      simp [lookupCode]
    · rw [show lookupCode code ((k, v) :: rest) = lookupCode code rest by
        simp [lookupCode, hk]]
      simp only [List.mem_cons, ih]
      constructor
      · rintro h p (rfl | hp)
        · exact hk
        · exact h p hp
      · intro h p hp
        exact h p (Or.inr hp)

theorem infect_neighbors_length (variant : CovidVariant) (mp : ℚ)
    (vmap : VariantCodeMap) (ns : List CovidAgent)
    (rands : ℕ → ℚ × ℚ × ChildRandomness) :
    (infect_neighbors variant mp vmap ns rands).1.length = ns.length := by
  induction ns generalizing vmap rands with
  | nil => rfl
  | cons n rest ih =>
    simp only [infect_neighbors, List.length_cons]
    rw [ih]

theorem infect_neighbors_get (variant : CovidVariant) (mp : ℚ)
    (vmap : VariantCodeMap) (ns : List CovidAgent)
    (rands : ℕ → ℚ × ℚ × ChildRandomness) (i : ℕ) (hi : i < ns.length) :
    ∃ m : VariantCodeMap,
      (infect_neighbors variant mp vmap ns rands).1.get
          ⟨i, by rw [infect_neighbors_length]; exact hi⟩ =
        (try_infect (ns.get ⟨i, hi⟩) variant mp m
          (rands i).1 (rands i).2.1 (rands i).2.2).1 := by
  induction ns generalizing vmap rands i with
  | nil => cases hi
  | cons n rest ih =>
    cases i with
    | zero => exact ⟨vmap, rfl⟩
    | succ j =>
      have hj : j < rest.length := Nat.lt_of_succ_lt_succ hi
      obtain ⟨m, hm⟩ := ih
        (try_infect n variant mp vmap (rands 0).1 (rands 0).2.1 (rands 0).2.2).2
        (fun k => rands (k + 1)) j hj
      exact ⟨m, hm⟩

theorem simLoop_eradicated {M : Type} (tick : M → M) (numInf numAg : M → ℕ)
    (fuel : ℕ) (m : M) (steps : ℕ) (h : numInf m = 0) :
    simLoop tick numInf numAg fuel m steps = (m, steps) := by
  cases fuel with
  | zero => rfl
  | succ n =>
    rw [simLoop, if_neg]
    simp [h]

theorem simLoop_stuck_one (fuel steps : ℕ) :
    simLoop (M := ℕ) id id (fun _ => 10) fuel 1 steps = (1, steps + fuel) := by
  induction fuel generalizing steps with
  | zero => rfl
  | succ n ih =>
    rw [simLoop, if_pos]
    · simp only [id_eq]
      rw [ih]
      simp [Nat.add_assoc, Nat.add_comm 1 n]
    · refine ⟨Nat.one_pos, ?_⟩
      norm_num [termination_condition_unmet, INFECTION_THRESHOLD]

theorem simLoop_exit {M : Type} (tick : M → M) (numInf numAg : M → ℕ)
    (fuel : ℕ) (m : M) (steps : ℕ) :
    (simLoop tick numInf numAg fuel m steps).2 = steps + fuel ∨
      numInf (simLoop tick numInf numAg fuel m steps).1 = 0 ∨
      ¬ termination_condition_unmet
          (numInf (simLoop tick numInf numAg fuel m steps).1)
          (numAg (simLoop tick numInf numAg fuel m steps).1) := by
  induction fuel generalizing m steps with
  | zero => exact Or.inl (by simp [simLoop])
  | succ n ih =>
    rw [simLoop]
    by_cases hc : 0 < numInf m ∧
        termination_condition_unmet (numInf m) (numAg m)
    · rw [if_pos hc]
      rcases ih (tick m) (steps + 1) with h1 | h2
      · exact Or.inl (by rw [h1]; omega)
      · exact Or.inr h2
    · rw [if_neg hc]
      rcases Decidable.not_and_iff_or_not.mp hc with h1 | h2
      · exact Or.inr (Or.inl (by simpa using Nat.eq_zero_of_not_pos h1))
      · exact Or.inr (Or.inr h2)

theorem numMutations_eq_filter (g : List Bool) (p : ℚ) (draws : List ℚ)
    (hlen : draws.length = g.length) :
    numMutations g p draws = (draws.filter (fun d => decide (d < p))).length := by
  unfold numMutations
  induction g generalizing draws with
  | nil =>
    obtain rfl : draws = [] := List.length_eq_zero.mp (by simpa using hlen)
    rfl
  | cons b bs ih =>
    cases draws with
    | nil => simp at hlen
    | cons d ds =>
      have hds : ds.length = bs.length := by simpa using hlen
      by_cases hd : d < p
      · simpa [List.zip_cons_cons, List.filter_cons, hd] using ih ds hds
      · simpa [List.zip_cons_cons, List.filter_cons, hd] using ih ds hds

theorem mutateGenome_getElem (g : List Bool) (p : ℚ) (draws : List ℚ)
    (i : ℕ) (b : Bool) (d : ℚ) (hg : g[i]? = some b) (hd : draws[i]? = some d) :
    (mutateGenome g p draws)[i]? = some (if d < p then !b else b) := by
  unfold mutateGenome
  induction g generalizing draws i with
  | nil => simp at hg
  | cons x xs ih =>
    cases draws with
    | nil => simp at hd
    | cons y ys =>
      cases i with
      | zero =>
        simp only [List.getElem?_cons_zero, Option.some_inj] at hg hd
        subst hg
        subst hd
        simp [List.zip_cons_cons]
      | succ j =>
        simp only [List.getElem?_cons_succ] at hg hd
        simpa [List.zip_cons_cons] using ih ys j hg hd

/-! ## Claim theorems -/

/-- C1, counterexample.  Two parts of the claim fail on the code.  First, the
resistance draw is NOT restricted to RESISTANT targets: `target1` is
SUSCEPTIBLE with a remembered variant of similarity 1/2 to the index variant,
the infection draw 0 is strictly below the infection probability 1/10, yet
with second draw 1/4 the target stays uninfected.  Second, the infecting
variant is not always a fresh descendant distinct from the parent: with no
bits flipped, child_variant returns the registry entry for the unchanged
genome, which is the parent itself, so the new infection carries the literal
parent variant. -/
theorem claim_C1_counterexample :
    target1.state = InfectionState.SUSCEPTIBLE ∧
    (0 : ℚ) < (indexVariant (1/10) (1/1000)).base_infection_prob ∧
    (try_infect target1 (indexVariant (1/10) (1/1000)) (1/1000)
        (initialVariantCodeMap (1/10) (1/1000)) 0 (1/4) noFlips).1 = target1 ∧
    (try_infect freshAgent (indexVariant (1/10) (1/1000)) (1/1000)
        (initialVariantCodeMap (1/10) (1/1000)) 0 (1/2) noFlips).1.infection_variant
      = some (indexVariant (1/10) (1/1000)) := by
  refine ⟨rfl, by norm_num [indexVariant], ?_, ?_⟩
  · norm_num [try_infect, target1, memVariant, indexVariant,
      infection_resistance_level, listMax, similarity, hammingDist,
      GENETIC_CODE_SIZE, List.replicate]
  · norm_num [try_infect, freshAgent, indexVariant, infection_resistance_level,
      child_variant, mutateGenome, numMutations, initialVariantCodeMap,
      bitsToNat, lookupCode, noFlips, GENETIC_CODE_SIZE, List.replicate]

/-- C1 (amended): try_infect leaves an INFECTED or DEAD target unchanged; for
a SUSCEPTIBLE or RESISTANT target alike, infection happens exactly when the
first draw is strictly below the variant's base infection probability and the
second draw is strictly above the target's resistance level (the greatest
similarity between the variant and the immune memory, 0 if empty); on success
the target becomes INFECTED and its infection variant is the result of
child_variant, which may be the literal parent when the mutated genome is
already registered. -/
theorem claim_C1_try_infect_behavior (a : CovidAgent) (variant : CovidVariant)
    (mp : ℚ) (vmap : VariantCodeMap) (r1 r2 : ℚ) (cr : ChildRandomness) :
    ((a.state = InfectionState.INFECTED ∨ a.state = InfectionState.DEAD) →
        try_infect a variant mp vmap r1 r2 cr = (a, vmap)) ∧
    ((a.state = InfectionState.SUSCEPTIBLE ∨ a.state = InfectionState.RESISTANT) →
      (r1 < variant.base_infection_prob ∧
          r2 > infection_resistance_level a variant →
        try_infect a variant mp vmap r1 r2 cr =
          ({ a with state := InfectionState.INFECTED
                    infection_variant := some (child_variant variant mp vmap cr).1 },
            (child_variant variant mp vmap cr).2)) ∧
      (¬ (r1 < variant.base_infection_prob ∧
          r2 > infection_resistance_level a variant) →
        try_infect a variant mp vmap r1 r2 cr = (a, vmap))) := by
  refine ⟨fun h => ?_, fun hs => ⟨fun hc => ?_, fun hc => ?_⟩⟩
  · rcases h with h | h <;> simp [try_infect, h]
  · rw [try_infect, if_pos ⟨hs, hc.1, hc.2⟩]
  · rw [try_infect, if_neg]
    intro hfull
    exact hc ⟨hfull.2.1, hfull.2.2⟩

/-- C1, witness: the amended characterization applied to a concrete
susceptible target with passing draws. -/
theorem claim_C1_witness :
    try_infect freshAgent (indexVariant (1/10) (1/1000)) (1/1000)
        (initialVariantCodeMap (1/10) (1/1000)) 0 (1/2) noFlips =
      ({ freshAgent with state := InfectionState.INFECTED
                         infection_variant := some (child_variant
                           (indexVariant (1/10) (1/1000)) (1/1000)
                           (initialVariantCodeMap (1/10) (1/1000)) noFlips).1 },
        (child_variant (indexVariant (1/10) (1/1000)) (1/1000)
          (initialVariantCodeMap (1/10) (1/1000)) noFlips).2) :=
  ((claim_C1_try_infect_behavior freshAgent (indexVariant (1/10) (1/1000))
      (1/1000) (initialVariantCodeMap (1/10) (1/1000)) 0 (1/2) noFlips).2
    (Or.inl rfl)).1
    ⟨by norm_num [indexVariant],
     by norm_num [infection_resistance_level, freshAgent]⟩

/-- C2 (confirmed): an INFECTED agent first tries the recovery draw (becoming
RESISTANT, remembering its variant, clearing it); only if that fails tries the
death branch (death draw strictly below death_prob and an independent draw
strictly above the greatest similarity between the current variant and the
immune memory); only if both fail does it run try_infect over every neighbor —
in the recovery and death branches the neighbors are returned untouched. -/
theorem claim_C2_infected_priority (a : CovidAgent) (params : ModelParams)
    (r : StepRandomness) (neighbors : List CovidAgent) (vmap : VariantCodeMap)
    (nrands : ℕ → ℚ × ℚ × ChildRandomness) (v : CovidVariant)
    (hstate : a.state = InfectionState.INFECTED)
    (hvar : a.infection_variant = some v) :
    (r.recoveryDraw < params.recovery_prob →
        step a params r neighbors vmap nrands =
          ({ a with state := InfectionState.RESISTANT
                    immune_memory := a.immune_memory ++ [v]
                    infection_variant := none }, neighbors, vmap)) ∧
    (¬ r.recoveryDraw < params.recovery_prob →
        r.deathDraw < params.death_prob ∧
          r.deathResistDraw > infection_resistance_level a v →
        step a params r neighbors vmap nrands =
          ({ a with state := InfectionState.DEAD }, neighbors, vmap)) ∧
    (¬ r.recoveryDraw < params.recovery_prob →
        ¬ (r.deathDraw < params.death_prob ∧
            r.deathResistDraw > infection_resistance_level a v) →
        step a params r neighbors vmap nrands =
          (a, (infect_neighbors v params.mutation_prob vmap neighbors nrands).1,
            (infect_neighbors v params.mutation_prob vmap neighbors nrands).2) ∧
        (infect_neighbors v params.mutation_prob vmap neighbors nrands).1.length
          = neighbors.length ∧
        ∀ (i : ℕ) (hi : i < neighbors.length), ∃ m : VariantCodeMap,
          (infect_neighbors v params.mutation_prob vmap neighbors nrands).1.get
              ⟨i, by rw [infect_neighbors_length]; exact hi⟩ =
            (try_infect (neighbors.get ⟨i, hi⟩) v params.mutation_prob m
              (nrands i).1 (nrands i).2.1 (nrands i).2.2).1) := by
  have hd : death_resistance_level a = infection_resistance_level a v := by
    rw [death_resistance_level, hvar]
  refine ⟨fun hrec => ?_, fun hnrec hdeath => ?_, fun hnrec hndeath => ?_⟩
  · simp [step, hstate, hrec, hvar]
  · rw [step, if_pos hstate, if_neg hnrec, if_pos (by rw [hd]; exact hdeath)]
  · rw [step, if_pos hstate, if_neg hnrec, if_neg (by rw [hd]; exact hndeath)]
    rw [hvar]
    exact ⟨rfl, infect_neighbors_length v params.mutation_prob vmap neighbors nrands,
      fun i hi => infect_neighbors_get v params.mutation_prob vmap neighbors nrands i hi⟩

/-- C2, witness: the seed agent whose recovery draw passes becomes RESISTANT,
remembers the index variant, clears its infection variant, and infects no
neighbor that tick. -/
theorem claim_C2_witness :
    step (seedAgent (1/10) (1/1000)) defaultParams ⟨0, 1, 1, 0⟩ [] [] zeroRands
      = (⟨InfectionState.RESISTANT, none, [indexVariant (1/10) (1/1000)]⟩, [], []) := by
  have h := (claim_C2_infected_priority (seedAgent (1/10) (1/1000)) defaultParams
    ⟨0, 1, 1, 0⟩ [] [] zeroRands (indexVariant (1/10) (1/1000)) rfl rfl).1
    (by norm_num [defaultParams])
  rw [h]
  rfl

/-- C3, counterexample.  The drifted rates are NOT clamped into the unit
interval: a parent with base infection probability 0.8 whose four genome bits
all mutate (every flip draw 0 is below the mutation probability 1/2) and whose
sign draw is +1 yields a child with base infection probability 1.6. -/
theorem claim_C3_counterexample :
    (child_variant fatParent (1/2) [(0, fatParent)]
        ⟨[0, 0, 0, 0], true, true⟩).1.base_infection_prob = 8/5 ∧
    ¬ (child_variant fatParent (1/2) [(0, fatParent)]
        ⟨[0, 0, 0, 0], true, true⟩).1.base_infection_prob ≤ 1 := by
  have h : (child_variant fatParent (1/2) [(0, fatParent)]
      ⟨[0, 0, 0, 0], true, true⟩).1.base_infection_prob = 8/5 := by
    norm_num [child_variant, fatParent, mutateGenome, numMutations, bitsToNat,
      lookupCode, signVal, List.replicate]
  rw [h]
  norm_num

/-- C3 (amended): when the mutated genome is new to the registry, each genome
bit flips exactly when its own independent draw is strictly below
mutation_prob, the mutation count is the number of flip draws below
mutation_prob, and the child rates follow the drift formulas
base + (m / genome_length) * base * sign with independent signs drawn from
plus or minus one — with NO clamping of the results into the unit interval. -/
theorem claim_C3_child_drift (v : CovidVariant) (p : ℚ) (vmap : VariantCodeMap)
    (cr : ChildRandomness) (hlen : cr.flipDraws.length = v.genetic_code.length)
    (hnew : lookupCode (bitsToNat (mutateGenome v.genetic_code p cr.flipDraws))
      vmap = none) :
    (child_variant v p vmap cr).1.genetic_code
      = mutateGenome v.genetic_code p cr.flipDraws ∧
    (∀ (i : ℕ) (b : Bool) (d : ℚ), v.genetic_code[i]? = some b →
        cr.flipDraws[i]? = some d →
        (mutateGenome v.genetic_code p cr.flipDraws)[i]?
          = some (if d < p then !b else b)) ∧
    numMutations v.genetic_code p cr.flipDraws
      = (cr.flipDraws.filter (fun d => decide (d < p))).length ∧
    (child_variant v p vmap cr).1.base_infection_prob
      = v.base_infection_prob +
        ((numMutations v.genetic_code p cr.flipDraws : ℚ) /
            (v.genetic_code.length : ℚ)) *
          v.base_infection_prob * signVal cr.infectionSign ∧
    (child_variant v p vmap cr).1.base_death_prob
      = v.base_death_prob +
        ((numMutations v.genetic_code p cr.flipDraws : ℚ) /
            (v.genetic_code.length : ℚ)) *
          v.base_death_prob * signVal cr.deathSign ∧
    (signVal cr.infectionSign = 1 ∨ signVal cr.infectionSign = -1) ∧
    (signVal cr.deathSign = 1 ∨ signVal cr.deathSign = -1) := by
  have hmlen : (mutateGenome v.genetic_code p cr.flipDraws).length
      = v.genetic_code.length := by
    simp [mutateGenome, List.length_zip, hlen]
  refine ⟨?_, ?_, numMutations_eq_filter v.genetic_code p cr.flipDraws hlen,
    ?_, ?_, ?_, ?_⟩
  · simp [child_variant, hnew]
  · exact fun i b d hb hd => mutateGenome_getElem v.genetic_code p cr.flipDraws i b d hb hd
  · simp [child_variant, hnew, hmlen]
  · simp [child_variant, hnew, hmlen]
  · cases cr.infectionSign <;> simp [signVal]
  · cases cr.deathSign <;> simp [signVal]

/-- C3, witness: the drift formula applied to the concrete all-bits-flipped
child of the 0.8-rate parent. -/
theorem claim_C3_witness :
    (child_variant fatParent (1/2) [(0, fatParent)]
        ⟨[0, 0, 0, 0], true, true⟩).1.base_infection_prob
      = fatParent.base_infection_prob +
        ((numMutations fatParent.genetic_code (1/2) [0, 0, 0, 0] : ℚ) /
            (fatParent.genetic_code.length : ℚ)) *
          fatParent.base_infection_prob * signVal true :=
  (claim_C3_child_drift fatParent (1/2) [(0, fatParent)]
    ⟨[0, 0, 0, 0], true, true⟩ rfl
    (by norm_num [lookupCode, mutateGenome, bitsToNat, fatParent,
      List.replicate])).2.2.2.1

theorem simLoop_halt {M : Type} (tick : M → M) (numInf numAg : M → ℕ)
    (fuel : ℕ) (m : M) (steps : ℕ)
    (h : ¬ (0 < numInf m ∧
      termination_condition_unmet (numInf m) (numAg m))) :
    simLoop tick numInf numAg fuel m steps = (m, steps) := by
  cases fuel with
  | zero => rfl
  | succ n => rw [simLoop, if_neg h]

theorem try_infect_inv (a : CovidAgent) (variant : CovidVariant) (mp : ℚ)
    (vmap : VariantCodeMap) (r1 r2 : ℚ) (cr : ChildRandomness)
    (hinv : variantStateInv a) :
    variantStateInv (try_infect a variant mp vmap r1 r2 cr).1 := by
  rw [try_infect]
  split
  · simp [variantStateInv]
  · exact hinv

theorem infect_neighbors_inv (variant : CovidVariant) (mp : ℚ)
    (vmap : VariantCodeMap) (ns : List CovidAgent)
    (rands : ℕ → ℚ × ℚ × ChildRandomness)
    (hn : ∀ n ∈ ns, variantStateInv n) :
    ∀ n2 ∈ (infect_neighbors variant mp vmap ns rands).1, variantStateInv n2 := by
  induction ns generalizing vmap rands with
  | nil => intro n2 h2; cases h2
  | cons n rest ih =>
    intro n2 h2
    rw [infect_neighbors] at h2
    rcases List.mem_cons.mp h2 with h2 | h2
    · subst h2
      exact try_infect_inv n variant mp vmap (rands 0).1 (rands 0).2.1
        (rands 0).2.2 (hn n (List.mem_cons_self n rest))
    · exact ih _ (fun k => rands (k + 1))
        (fun x hx => hn x (List.mem_cons_of_mem n hx)) n2 h2

/-- C4, counterexample.  After one step in which a SUSCEPTIBLE agent gains
vaccine resistance, its immune memory holds the vaccine pseudo-variant, whose
genome (hence name) equals the registered index variant's, yet which is a
different instance from the registry's canonical one (its base rates are 0):
not every reference with that genome resolves to the canonical Variant. -/
theorem claim_C4_counterexample :
    (step freshAgent defaultParams ⟨0, 0, 0, 1/200⟩ []
        (initialVariantCodeMap (1/10) (1/1000)) zeroRands).1.immune_memory
      = [vaccineVariant] ∧
    vname vaccineVariant = vname (indexVariant (1/10) (1/1000)) ∧
    vaccineVariant ≠ indexVariant (1/10) (1/1000) ∧
    lookupCode (vname vaccineVariant) (initialVariantCodeMap (1/10) (1/1000))
      = some (indexVariant (1/10) (1/1000)) := by
  refine ⟨?_, rfl, ?_, rfl⟩
  · rw [step, if_neg (by simp [freshAgent]), if_pos (by rfl),
      if_pos (by norm_num [defaultParams])]
    rfl
  · intro h
    have := congrArg CovidVariant.base_infection_prob h
    norm_num [vaccineVariant, indexVariant] at this

/-- C4 (amended): the registry itself is canonical — child_variant returns the
existing entry unchanged (computing no new rates) whenever the mutated genome
is already registered, inserts exactly one entry keyed by the new genome
otherwise, and preserves distinctness of registry keys.  The vaccine
pseudo-variant, however, lives outside the registry (see the
counterexample). -/
theorem claim_C4_registry_dedup (v : CovidVariant) (p : ℚ)
    (vmap : VariantCodeMap) (cr : ChildRandomness) :
    (∀ w : CovidVariant,
        lookupCode (bitsToNat (mutateGenome v.genetic_code p cr.flipDraws)) vmap
          = some w →
        child_variant v p vmap cr = (w, vmap)) ∧
    (lookupCode (bitsToNat (mutateGenome v.genetic_code p cr.flipDraws)) vmap
        = none →
      (child_variant v p vmap cr).2 =
        (bitsToNat (mutateGenome v.genetic_code p cr.flipDraws),
          (child_variant v p vmap cr).1) :: vmap) ∧
    ((vmap.map Prod.fst).Nodup →
      ((child_variant v p vmap cr).2.map Prod.fst).Nodup) := by
  refine ⟨fun w hw => ?_, fun hn => ?_, fun hnd => ?_⟩
  · simp [child_variant, hw]
  · simp [child_variant, hn]
  · rcases h : lookupCode (bitsToNat (mutateGenome v.genetic_code p cr.flipDraws))
        vmap with - | w
    · have hnotmem : bitsToNat (mutateGenome v.genetic_code p cr.flipDraws)
          ∉ vmap.map Prod.fst := by
        intro hmem
        obtain ⟨pair, hpair, hfst⟩ := List.mem_map.mp hmem
        exact (lookupCode_eq_none.mp h pair hpair) hfst.symm
      simp [child_variant, h, List.nodup_cons, hnotmem, hnd]
    · simp [child_variant, h, hnd]

/-- C4, witness: a mutation that flips no bit of the index variant resolves
through the registry back to the canonical index variant, leaving the registry
unchanged. -/
theorem claim_C4_witness :
    child_variant (indexVariant (1/10) (1/1000)) (1/1000)
        (initialVariantCodeMap (1/10) (1/1000)) noFlips
      = (indexVariant (1/10) (1/1000), initialVariantCodeMap (1/10) (1/1000)) :=
  (claim_C4_registry_dedup (indexVariant (1/10) (1/1000)) (1/1000)
      (initialVariantCodeMap (1/10) (1/1000)) noFlips).1
    (indexVariant (1/10) (1/1000))
    (by norm_num [lookupCode, mutateGenome, bitsToNat, indexVariant,
      initialVariantCodeMap, noFlips, GENETIC_CODE_SIZE, List.replicate])

/-- C5, counterexample.  run_simulation cannot distinguish eradication from an
inconclusive run: with 10 agents and a tick that never changes anything, a
start with 0 infected exits the loop at once (eradicated) and a start with 1
infected runs all 500 steps (inconclusive, fraction 1/10 below the 0.9
threshold) — both return None. -/
theorem claim_C5_counterexample :
    run_simulation (M := ℕ) id id (fun _ => 10) 0 = none ∧
    run_simulation (M := ℕ) id id (fun _ => 10) 1 = none ∧
    simLoop (M := ℕ) id id (fun _ => 10) MAX_STEPS 0 0 = (0, 0) ∧
    simLoop (M := ℕ) id id (fun _ => 10) MAX_STEPS 1 0 = (1, MAX_STEPS) := by
  refine ⟨?_, ?_, simLoop_eradicated id id (fun _ => 10) MAX_STEPS 0 0 rfl,
    by simpa using simLoop_stuck_one MAX_STEPS 0⟩
  · rw [run_simulation, simLoop_eradicated id id (fun _ => 10) MAX_STEPS 0 0 rfl,
      if_pos]
    norm_num [termination_condition_unmet, INFECTION_THRESHOLD]
  · rw [run_simulation]
    simp only [simLoop_stuck_one]
    rw [if_pos]
    norm_num [termination_condition_unmet, INFECTION_THRESHOLD]

/-- C5 (amended): the loop runs while steps are below MAX_STEPS, someone is
infected, and the infected fraction is below the threshold; afterwards the
caller learns only whether the threshold was reached — Some(steps) when the
final infected fraction is at least the threshold and None otherwise, so
eradication and an inconclusive run are indistinguishable to the caller. -/
theorem claim_C5_run_classification {M : Type} (tick : M → M)
    (numInf numAg : M → ℕ) (m : M) :
    ((simLoop tick numInf numAg MAX_STEPS m 0).2 = MAX_STEPS ∨
      numInf (simLoop tick numInf numAg MAX_STEPS m 0).1 = 0 ∨
      ¬ termination_condition_unmet
          (numInf (simLoop tick numInf numAg MAX_STEPS m 0).1)
          (numAg (simLoop tick numInf numAg MAX_STEPS m 0).1)) ∧
    (¬ termination_condition_unmet
        (numInf (simLoop tick numInf numAg MAX_STEPS m 0).1)
        (numAg (simLoop tick numInf numAg MAX_STEPS m 0).1) →
      run_simulation tick numInf numAg m
        = some (simLoop tick numInf numAg MAX_STEPS m 0).2) ∧
    (termination_condition_unmet
        (numInf (simLoop tick numInf numAg MAX_STEPS m 0).1)
        (numAg (simLoop tick numInf numAg MAX_STEPS m 0).1) →
      run_simulation tick numInf numAg m = none) := by
  refine ⟨by simpa using simLoop_exit tick numInf numAg MAX_STEPS m 0,
    fun h => ?_, fun h => ?_⟩
  · rw [run_simulation, if_neg h]
  · rw [run_simulation, if_pos h]

/-- C5, witness: a run that starts at the threshold returns Some immediately. -/
theorem claim_C5_witness :
    run_simulation (M := ℕ) id id (fun _ => 10) 9 = some 0 := by
  have hfin : simLoop (M := ℕ) id id (fun _ => 10) MAX_STEPS 9 0 = (9, 0) :=
    simLoop_halt id id (fun _ => 10) MAX_STEPS 9 0
      (by norm_num [termination_condition_unmet, INFECTION_THRESHOLD])
  have h := (claim_C5_run_classification (M := ℕ) id id (fun _ => 10) 9).2.1
  rw [hfin] at h
  simpa using h
    (by norm_num [termination_condition_unmet, INFECTION_THRESHOLD])

/-- C6, counterexample.  A RESISTANT agent is a no-op in its own step: the
code tracks no resistance age and has no waning-resistance transition, so the
agent comes out bit-for-bit unchanged and in particular never returns to
SUSCEPTIBLE through its step. -/
theorem claim_C6_counterexample :
    step vaxAgent defaultParams ⟨0, 0, 0, 0⟩ [] [] zeroRands
      = (vaxAgent, [], []) ∧
    vaxAgent.state = InfectionState.RESISTANT ∧
    (step vaxAgent defaultParams ⟨0, 0, 0, 0⟩ [] [] zeroRands).1.state
      ≠ InfectionState.SUSCEPTIBLE := by
  have h : step vaxAgent defaultParams ⟨0, 0, 0, 0⟩ [] [] zeroRands
      = (vaxAgent, [], []) := by
    simp [step, vaxAgent]
  refine ⟨h, rfl, ?_⟩
  rw [h]
  simp [vaxAgent]

/-- C6 (amended): a RESISTANT agent's step changes nothing at all — not the
agent, not the neighbors, not the registry; the source has no RESISTANT branch
in CovidAgent.step. -/
theorem claim_C6_resistant_noop (a : CovidAgent) (params : ModelParams)
    (r : StepRandomness) (neighbors : List CovidAgent) (vmap : VariantCodeMap)
    (nrands : ℕ → ℚ × ℚ × ChildRandomness)
    (h : a.state = InfectionState.RESISTANT) :
    step a params r neighbors vmap nrands = (a, neighbors, vmap) := by
  simp [step, h]

/-- C6, witness: the no-op applied to a concrete resistant agent. -/
theorem claim_C6_witness :
    step vaxAgent defaultParams ⟨1/2, 1/2, 1/2, 1/2⟩ [freshAgent] [] zeroRands
      = (vaxAgent, [freshAgent], []) :=
  claim_C6_resistant_noop vaxAgent defaultParams ⟨1/2, 1/2, 1/2, 1/2⟩
    [freshAgent] [] zeroRands rfl

/-- C7, counterexample.  The seed agent dying on its first step (recovery draw
1/2 fails against 0.05, death draw 0 passes against 0.001, resistance draw 1/2
exceeds the empty-memory level 0) ends DEAD with its infecting variant still
set — `infecting_variant` is not cleared on death, refuting the
set-iff-INFECTED invariant. -/
theorem claim_C7_counterexample :
    (step (seedAgent (1/10) (1/1000)) defaultParams ⟨1/2, 0, 1/2, 0⟩ [] []
        zeroRands).1
      = ⟨InfectionState.DEAD, some (indexVariant (1/10) (1/1000)), []⟩ := by
  norm_num [step, seedAgent, defaultParams, death_resistance_level,
    infection_resistance_level, indexVariant]

/-- C7 (amended): the invariant the code maintains is that the infection
variant is set exactly in the INFECTED and DEAD states: it holds for the
initial agents and is preserved by step (for the agent and all its neighbors)
and by try_infect. -/
theorem claim_C7_variant_invariant (ip dp : ℚ) :
    variantStateInv (seedAgent ip dp) ∧
    variantStateInv freshAgent ∧
    (∀ (a : CovidAgent) (variant : CovidVariant) (mp : ℚ)
        (vmap : VariantCodeMap) (r1 r2 : ℚ) (cr : ChildRandomness),
      variantStateInv a →
      variantStateInv (try_infect a variant mp vmap r1 r2 cr).1) ∧
    (∀ (a : CovidAgent) (params : ModelParams) (r : StepRandomness)
        (neighbors : List CovidAgent) (vmap : VariantCodeMap)
        (nrands : ℕ → ℚ × ℚ × ChildRandomness),
      variantStateInv a → (∀ n ∈ neighbors, variantStateInv n) →
      variantStateInv (step a params r neighbors vmap nrands).1 ∧
      ∀ n2 ∈ (step a params r neighbors vmap nrands).2.1, variantStateInv n2) := by
  refine ⟨by simp [variantStateInv, seedAgent], by simp [variantStateInv, freshAgent],
    fun a variant mp vmap r1 r2 cr hinv =>
      try_infect_inv a variant mp vmap r1 r2 cr hinv,
    fun a params r neighbors vmap nrands hinv hn => ?_⟩
  cases hstate : a.state with
  | SUSCEPTIBLE =>
    have hnone : a.infection_variant = none := by
      rcases hv : a.infection_variant with - | v
      · rfl
      · have hid : a.state = InfectionState.INFECTED ∨
            a.state = InfectionState.DEAD := hinv.mpr (by simp [hv])
        rw [hstate] at hid
        rcases hid with h | h <;> cases h
    rw [step, if_neg (by simp [hstate]), if_pos hstate]
    by_cases hgain : r.gainResistDraw < params.gain_resistance_prob
    · rw [if_pos hgain]
      exact ⟨by simp [variantStateInv, hnone], hn⟩
    · rw [if_neg hgain]
      exact ⟨hinv, hn⟩
  | INFECTED =>
    obtain ⟨v, hv⟩ : ∃ v, a.infection_variant = some v :=
      Option.isSome_iff_exists.mp (hinv.mp (Or.inl hstate))
    rw [step, if_pos hstate]
    by_cases hrec : r.recoveryDraw < params.recovery_prob
    · rw [if_pos hrec]
      exact ⟨by simp [variantStateInv], hn⟩
    · rw [if_neg hrec]
      by_cases hdeath : r.deathDraw < params.death_prob ∧
          r.deathResistDraw > death_resistance_level a
      · rw [if_pos hdeath]
        exact ⟨by simp [variantStateInv, hv], hn⟩
      · rw [if_neg hdeath]
        simp only [hv]
        exact ⟨hinv,
          infect_neighbors_inv v params.mutation_prob vmap neighbors nrands hn⟩
  | RESISTANT =>
    rw [step, if_neg (by simp [hstate]), if_neg (by simp [hstate])]
    exact ⟨hinv, hn⟩
  | DEAD =>
    rw [step, if_neg (by simp [hstate]), if_neg (by simp [hstate])]
    exact ⟨hinv, hn⟩

/-- C7, witness: the invariant after a successful concrete infection. -/
theorem claim_C7_witness :
    variantStateInv (try_infect freshAgent (indexVariant (1/10) (1/1000))
      (1/1000) (initialVariantCodeMap (1/10) (1/1000)) 0 (1/2) noFlips).1 :=
  (claim_C7_variant_invariant (1/10) (1/1000)).2.2.1 freshAgent
    (indexVariant (1/10) (1/1000)) (1/1000)
    (initialVariantCodeMap (1/10) (1/1000)) 0 (1/2) noFlips
    (by simp [variantStateInv, freshAgent])

/-- C8 (confirmed): DEAD is absorbing — a dead agent is unchanged by its own
step (which also touches neither neighbors nor registry), by any try_infect
against it (registry included), and by any finite sequence of such
operations. -/
theorem claim_C8_dead_absorbing (a : CovidAgent)
    (h : a.state = InfectionState.DEAD) :
    (∀ (params : ModelParams) (r : StepRandomness)
        (neighbors : List CovidAgent) (vmap : VariantCodeMap)
        (nrands : ℕ → ℚ × ℚ × ChildRandomness),
      step a params r neighbors vmap nrands = (a, neighbors, vmap)) ∧
    (∀ (variant : CovidVariant) (mp : ℚ) (vmap : VariantCodeMap) (r1 r2 : ℚ)
        (cr : ChildRandomness),
      try_infect a variant mp vmap r1 r2 cr = (a, vmap)) ∧
    (∀ ops : List AgentOp, applyOps a ops = a) := by
  have hstep : ∀ (params : ModelParams) (r : StepRandomness)
      (neighbors : List CovidAgent) (vmap : VariantCodeMap)
      (nrands : ℕ → ℚ × ℚ × ChildRandomness),
      step a params r neighbors vmap nrands = (a, neighbors, vmap) := by
    intro params r neighbors vmap nrands
    simp [step, h]
  have hinf : ∀ (variant : CovidVariant) (mp : ℚ) (vmap : VariantCodeMap)
      (r1 r2 : ℚ) (cr : ChildRandomness),
      try_infect a variant mp vmap r1 r2 cr = (a, vmap) := by
    intro variant mp vmap r1 r2 cr
    simp [try_infect, h]
  refine ⟨hstep, hinf, ?_⟩
  intro ops
  induction ops with
  | nil => rfl
  | cons op rest ih =>
    have hop : applyOp a op = a := by
      cases op with
      | stepOp params r neighbors vmap nrands => simp [applyOp, hstep]
      | tryInfectOp variant mp vmap r1 r2 cr => simp [applyOp, hinf]
    calc applyOps a (op :: rest) = applyOps (applyOp a op) rest := rfl
      _ = applyOps a rest := by rw [hop]
      _ = a := ih

/-- C8, witness: a concrete dead agent survives a step and an infection
attempt untouched. -/
theorem claim_C8_witness :
    applyOps deadAgent
      [AgentOp.stepOp defaultParams ⟨0, 0, 1, 0⟩ [] [] zeroRands,
        AgentOp.tryInfectOp (indexVariant (1/10) (1/1000)) (1/1000)
          (initialVariantCodeMap (1/10) (1/1000)) 0 1 noFlips]
      = deadAgent :=
  (claim_C8_dead_absorbing deadAgent rfl).2.2 _

/-- C9, counterexample.  The average-immunity table is NOT guarded against an
empty population or an empty registry: with zero agents (and one known
variant) and with zero known variants (and one agent) the source divides by
`len(self.agents)` resp. `len(self.variant_code_map)` and raises
ZeroDivisionError (modelled by `none`) instead of yielding 0 per variant. -/
theorem claim_C9_counterexample :
    variant_immunity_levels [] [indexVariant (1/10) (1/1000)] = none ∧
    variant_immunity_levels [freshAgent] [] = none := by
  constructor <;> norm_num [variant_immunity_levels]

/-- C9 (amended): with at least one agent and one known variant the table is
computed without raising: each variant maps to its population-mean resistance
level divided by the mean of those means, except that a vanishing
population-wide mean yields 0 for every variant (the one guard the source
has); zero agents or zero known variants raise instead. -/
theorem claim_C9_immunity_levels (agents : List CovidAgent)
    (variants : List CovidVariant) (ha : agents ≠ []) (hv : variants ≠ []) :
    variant_immunity_levels agents variants
      = some (variants.map (fun v =>
          (v, if 0 < avgImmunity agents variants
              then meanImmunity agents v / avgImmunity agents variants
              else 0))) := by
  rw [variant_immunity_levels, if_neg]
  · simp only [Option.some_inj, List.map_map]
    rfl
  · simp [List.length_eq_zero, ha, hv]

/-- C9, witness: one agent with empty immune memory and the index variant give
a population-wide mean of 0, so the guard reports 0 for the variant. -/
theorem claim_C9_witness :
    variant_immunity_levels [freshAgent] [indexVariant (1/10) (1/1000)]
      = some [(indexVariant (1/10) (1/1000), 0)] := by
  have h := claim_C9_immunity_levels [freshAgent]
    [indexVariant (1/10) (1/1000)] (by simp) (by simp)
  rw [h]
  norm_num [meanImmunity, avgImmunity, infection_resistance_level, freshAgent]

/-- C10 (confirmed): the index variant carries the default all-zero genome,
the same genome as the vaccine pseudo-variant; Variant equality and hashing
depend only on the genome's name, not the rates, so the two compare equal and
hash equal and have similarity 1; hence an agent remembering the vaccine
pseudo-variant has resistance level at least 1 against the index variant and
no uniform draw of at most 1 can infect it with the index variant. -/
theorem claim_C10_vaccine_index (ip dp : ℚ) :
    (indexVariant ip dp).genetic_code = List.replicate GENETIC_CODE_SIZE false ∧
    vaccineVariant.genetic_code = List.replicate GENETIC_CODE_SIZE false ∧
    (∀ (g : List Bool) (i1 d1 i2 d2 : ℚ),
      veq ⟨g, i1, d1⟩ ⟨g, i2, d2⟩ = true) ∧
    veq vaccineVariant (indexVariant ip dp) = true ∧
    vhash vaccineVariant = vhash (indexVariant ip dp) ∧
    similarity vaccineVariant (indexVariant ip dp) = 1 ∧
    (∀ (a : CovidAgent) (mp : ℚ) (vmap : VariantCodeMap) (r1 r2 : ℚ)
        (cr : ChildRandomness), vaccineVariant ∈ a.immune_memory → r2 ≤ 1 →
      try_infect a (indexVariant ip dp) mp vmap r1 r2 cr = (a, vmap)) := by
  have hsim : similarity vaccineVariant (indexVariant ip dp) = 1 := by
    norm_num [similarity, vaccineVariant, indexVariant, hammingDist,
      GENETIC_CODE_SIZE, List.replicate]
  refine ⟨rfl, rfl, fun g i1 d1 i2 d2 => by simp [veq, vname], rfl, rfl, hsim,
    fun a mp vmap r1 r2 cr hmem hr2 => ?_⟩
  have hne : a.immune_memory.length ≠ 0 := by
    intro h0
    rw [List.length_eq_zero.mp h0] at hmem
    exact List.not_mem_nil vaccineVariant hmem
  have hmemsim : similarity vaccineVariant (indexVariant ip dp) ∈
      a.immune_memory.map
        (fun remembered_variant => similarity remembered_variant
          (indexVariant ip dp)) :=
    List.mem_map.mpr ⟨vaccineVariant, hmem, rfl⟩
  have hlev : (1 : ℚ) ≤ infection_resistance_level a (indexVariant ip dp) := by
    rw [infection_resistance_level, if_pos hne]
    calc (1 : ℚ) = similarity vaccineVariant (indexVariant ip dp) := hsim.symm
      _ ≤ _ := le_listMax_of_mem hmemsim
  rw [try_infect, if_neg]
  rintro ⟨-, -, hgt⟩
  exact (not_lt.mpr (hr2.trans hlev)) hgt

/-- C10, witness: a concrete vaccinated resistant agent repels the index
variant at a draw of 0.99. -/
theorem claim_C10_witness :
    try_infect vaxAgent (indexVariant (1/10) (1/1000)) (1/1000)
        (initialVariantCodeMap (1/10) (1/1000)) 0 (99/100) noFlips
      = (vaxAgent, initialVariantCodeMap (1/10) (1/1000)) :=
  (claim_C10_vaccine_index (1/10) (1/1000)).2.2.2.2.2.2 vaxAgent (1/1000)
    (initialVariantCodeMap (1/10) (1/1000)) 0 (99/100) noFlips
    (by simp [vaxAgent]) (by norm_num)

end Covid
